import Mathlib

/-!
Verification development for the logpare-mcp repository.

The development shallowly embeds the session and task lifecycle manager of the
repository: the in-memory task store (src/stores/task-store.ts), the
compress_logs request handler and its size-based sync/async routing
(src/tools/compress.ts), and the HTTP session registry and request router
(src/transports/http.ts).  JavaScript Map objects are embedded as association
lists with first-match lookup, timestamps as natural-number milliseconds, and
the nondeterministic ingredients of the code (Date.now, generated ids, the
external compressText call) as explicit parameters.
-/

namespace Logpare

/-! ## Association-list embedding of a JavaScript Map -/

/-- First-match lookup, embedding Map.prototype.get. -/
def mapGet {β : Type} : List (String × β) → String → Option β
  | [], _ => none
  | (k, v) :: rest, key => if k = key then some v else mapGet rest key

/-- Embedding of Map.prototype.set: replace the entry when the key is present
(insertion order kept), append otherwise. -/
def mapSet {β : Type} : List (String × β) → String → β → List (String × β)
  | [], key, v => [(key, v)]
  | (k, w) :: rest, key, v =>
      if k = key then (key, v) :: rest else (k, w) :: mapSet rest key v

/-- Embedding of Map.prototype.delete (the entry for the key is removed). -/
def mapDelete {β : Type} : List (String × β) → String → List (String × β)
  | [], _ => []
  | (k, w) :: rest, key => if k = key then rest else (k, w) :: mapDelete rest key

/-! ## Task store data model (src/stores/task-store.ts) -/

/-- The status union of a TaskState. -/
inductive TaskStatus : Type where
  | working
  | completed
  | failed
  | cancelled
deriving DecidableEq, Repr

/-- The currentPhase union of TaskProgress. -/
inductive TaskPhase : Type where
  | parsing
  | clustering
  | categorizing
  | formatting
  | finalizing
deriving DecidableEq, Repr

/-- Embedding of the TaskProgress interface. -/
structure TaskProgress : Type where
  percent : Int
  statusMessage : String
  currentPhase : TaskPhase
  processedLines : Option Nat := none
  totalLines : Option Nat := none
deriving DecidableEq, Repr

/-- One element of a content array; the type tag is always the literal text. -/
structure TextContent : Type where
  text : String
deriving DecidableEq, Repr

/-- The summary block inside TaskResult.structuredContent. -/
structure TaskSummary : Type where
  userImpactingErrors : Nat
  expectedFailures : Nat
  performanceViolations : Nat
  otherWarnings : Nat
  infoPatterns : Nat
  stackTracePatterns : Nat
deriving DecidableEq, Repr

/-- One entry of the templates array inside TaskResult.structuredContent. -/
structure TemplateRef : Type where
  id : String
  pattern : String
  occurrences : Nat
deriving DecidableEq, Repr

/-- The structuredContent block of a TaskResult.  Fractional JavaScript
numbers are embedded as rationals, counts as naturals. -/
structure TaskResultStructured : Type where
  compressionRatio : Rat
  inputLines : Nat
  uniqueTemplates : Nat
  estimatedTokenReduction : Rat
  summary : TaskSummary
  templates : List TemplateRef
  processingTimeMs : Nat
deriving DecidableEq, Repr

/-- Embedding of the TaskResult interface. -/
structure TaskResult : Type where
  content : List TextContent
  structuredContent : TaskResultStructured
deriving DecidableEq, Repr

/-- Embedding of the TaskError interface. -/
structure TaskError : Type where
  code : String
  message : String
deriving DecidableEq, Repr

/-- Embedding of the TaskState interface.  The ISO timestamp strings are
embedded as epoch milliseconds (the code only ever round-trips them through
Date parsing and compares differences). -/
structure TaskState : Type where
  taskId : String
  status : TaskStatus
  createdAt : Nat
  lastUpdatedAt : Nat
  ttl : Int
  pollInterval : Nat
  progress : Option TaskProgress := none
  result : Option TaskResult := none
  error : Option TaskError := none
deriving DecidableEq, Repr

/-- The private tasks map of the TaskStore class. -/
abbrev TaskMap : Type := List (String × TaskState)

/-- The Partial TaskState argument of TaskStore.update, restricted to the
fields that the callers inside the repository actually pass (status, progress,
result, error); none means the field is absent from the updates object. -/
structure TaskUpdates : Type where
  status : Option TaskStatus := none
  progress : Option TaskProgress := none
  result : Option TaskResult := none
  error : Option TaskError := none

/-- Object-spread semantics for one optional field: a key present in the
updates object overrides, an absent key keeps the old value. -/
def spreadField {α : Type} : Option α → Option α → Option α
  | some x, _ => some x
  | none, old => old

namespace TaskStore

/-- Embedding of TaskStore.create.  The generated id and the current time
enter as parameters; the default ttl is 5 minutes as in the source. -/
def create (m : TaskMap) (taskId : String) (now : Nat) (ttl : Int := 300000) :
    TaskState × TaskMap :=
  let task : TaskState :=
    { taskId := taskId
      status := TaskStatus.working
      createdAt := now
      lastUpdatedAt := now
      ttl := ttl
      pollInterval := 1000 }
  (task, mapSet m taskId task)

/-- Embedding of TaskStore.get. -/
def get (m : TaskMap) (taskId : String) : Option TaskState :=
  mapGet m taskId

/-- Embedding of TaskStore.update: spread the existing task, spread the
updates over it, stamp lastUpdatedAt; undefined when the task is missing. -/
def update (m : TaskMap) (taskId : String) (u : TaskUpdates) (now : Nat) :
    Option TaskState × TaskMap :=
  match mapGet m taskId with
  | none => (none, m)
  | some task =>
      let updated : TaskState :=
        { task with
          status := u.status.getD task.status
          progress := spreadField u.progress task.progress
          result := spreadField u.result task.result
          error := spreadField u.error task.error
          lastUpdatedAt := now }
      (some updated, mapSet m taskId updated)

/-- Embedding of TaskStore.complete. -/
def complete (m : TaskMap) (taskId : String) (result : TaskResult) (now : Nat) :
    Option TaskState × TaskMap :=
  update m taskId { status := some TaskStatus.completed, result := some result } now

/-- Embedding of TaskStore.fail. -/
def fail (m : TaskMap) (taskId : String) (error : TaskError) (now : Nat) :
    Option TaskState × TaskMap :=
  update m taskId { status := some TaskStatus.failed, error := some error } now

/-- The fixed error object written by TaskStore.cancel. -/
def cancelledError : TaskError :=
  { code := "CANCELLED", message := "Task was cancelled by user" }

/-- Embedding of TaskStore.cancel: undefined when the task is missing or not
working, otherwise the cancelled update. -/
def cancel (m : TaskMap) (taskId : String) (now : Nat) :
    Option TaskState × TaskMap :=
  match mapGet m taskId with
  | none => (none, m)
  | some task =>
      if task.status ≠ TaskStatus.working then (none, m)
      else update m taskId
        { status := some TaskStatus.cancelled, error := some cancelledError } now

/-- Embedding of TaskStore.isCancelled. -/
def isCancelled (m : TaskMap) (taskId : String) : Bool :=
  match mapGet m taskId with
  | some task => decide (task.status = TaskStatus.cancelled)
  | none => false

/-- Embedding of TaskStore.updateProgress: silently undefined when the task is
missing or not working. -/
def updateProgress (m : TaskMap) (taskId : String) (progress : TaskProgress)
    (now : Nat) : Option TaskState × TaskMap :=
  match mapGet m taskId with
  | none => (none, m)
  | some task =>
      if task.status ≠ TaskStatus.working then (none, m)
      else update m taskId { progress := some progress } now

/-- Embedding of TaskStore.delete. -/
def delete (m : TaskMap) (taskId : String) : Bool × TaskMap :=
  ((mapGet m taskId).isSome, mapDelete m taskId)

/-- The expiry test of TaskStore.cleanupExpired: now - createdMs > ttl. -/
def isExpired (task : TaskState) (now : Nat) : Bool :=
  decide ((now : Int) - (task.createdAt : Int) > task.ttl)

/-- Embedding of TaskStore.cleanupExpired: collect the expired ids, then
delete each of them. -/
def cleanupExpired (m : TaskMap) (now : Nat) : TaskMap :=
  let expired : List String :=
    (m.filter (fun entry => isExpired entry.2 now)).map Prod.fst
  expired.foldl (fun acc taskId => (delete acc taskId).2) m

end TaskStore

/-! Sanity checks of the embedding on concrete runs. -/

/-- A concrete TaskResult payload used by concrete runs below. -/
def sampleResult : TaskResult :=
  { content := [{ text := "compressed" }]
    structuredContent :=
      { compressionRatio := 0
        inputLines := 3
        uniqueTemplates := 1
        estimatedTokenReduction := 0
        summary :=
          { userImpactingErrors := 0, expectedFailures := 0
            performanceViolations := 0, otherWarnings := 0
            infoPatterns := 0, stackTracePatterns := 0 }
        templates := []
        processingTimeMs := 7 } }

/-- A concrete TaskProgress payload used by concrete runs below. -/
def sampleProgress : TaskProgress :=
  { percent := 40
    statusMessage := "Processing"
    currentPhase := TaskPhase.clustering }

example :
    (TaskStore.create [] "t1" 5).1.status = TaskStatus.working ∧
    (TaskStore.create [] "t1" 5).1.ttl = 300000 := by
  constructor <;> rfl

example :
    TaskStore.get (TaskStore.create [] "t1" 5).2 "t1" =
      some (TaskStore.create [] "t1" 5).1 := by
  rfl

/-! ## Association-list lemmas -/

@[simp]
theorem spreadField_some {α : Type} (x : α) (old : Option α) :
    spreadField (some x) old = some x := rfl

@[simp]
theorem spreadField_none {α : Type} (old : Option α) :
    spreadField none old = old := rfl

theorem mapGet_set_self {β : Type} (m : List (String × β)) (k : String) (v : β) :
    mapGet (mapSet m k v) k = some v := by
  induction m with
  | nil => simp [mapSet, mapGet]
  | cons hd tl ih =>
      obtain ⟨k0, v0⟩ := hd
      by_cases h : k0 = k
      · simp [mapSet, h, mapGet]
      · simp [mapSet, h, mapGet, ih]

theorem mapGet_set_ne {β : Type} (m : List (String × β)) (k key : String) (v : β)
    (h : k ≠ key) : mapGet (mapSet m k v) key = mapGet m key := by
  induction m with
  | nil => simp [mapSet, mapGet, h]
  | cons hd tl ih =>
      obtain ⟨k0, v0⟩ := hd
      by_cases h0 : k0 = k
      · subst h0
        simp [mapSet, mapGet, h]
      · simp [mapSet, h0, mapGet, ih]

theorem mapGet_delete_ne {β : Type} (m : List (String × β)) (k key : String)
    (h : k ≠ key) : mapGet (mapDelete m k) key = mapGet m key := by
  induction m with
  | nil => simp [mapDelete]
  | cons hd tl ih =>
      obtain ⟨k0, v0⟩ := hd
      by_cases h0 : k0 = k
      · subst h0
        simp [mapDelete, mapGet, h]
      · simp [mapDelete, h0, mapGet, ih]

theorem mapGet_delete_none {β : Type} (m : List (String × β)) (k key : String)
    (h : mapGet m key = none) : mapGet (mapDelete m k) key = none := by
  induction m with
  | nil => simp [mapDelete, mapGet]
  | cons hd tl ih =>
      obtain ⟨k0, v0⟩ := hd
      by_cases h0 : k0 = key
      · subst h0
        simp [mapGet] at h
      · simp [mapGet, h0] at h
        by_cases h1 : k0 = k
        · simpa [mapDelete, h1] using h
        · simp [mapDelete, h1, mapGet, h0, ih h]

theorem mapGet_delete_self {β : Type} (m : List (String × β)) (k : String)
    (hnd : (m.map Prod.fst).Nodup) : mapGet (mapDelete m k) k = none := by
  induction m with
  | nil => simp [mapDelete, mapGet]
  | cons hd tl ih =>
      obtain ⟨k0, v0⟩ := hd
      simp only [List.map_cons, List.nodup_cons] at hnd
      by_cases h0 : k0 = k
      · subst h0
        simp only [mapDelete, if_pos rfl]
        cases hfind : mapGet tl k0 with
        | none => exact hfind
        | some w =>
            exfalso
            exact hnd.1 (by
              clear ih hnd
              induction tl with
              | nil => simp [mapGet] at hfind
              | cons hd2 tl2 ih2 =>
                  obtain ⟨k2, v2⟩ := hd2
                  by_cases h2 : k2 = k0
                  · simp [h2]
                  · simp only [mapGet, if_neg h2] at hfind
                    simp [ih2 hfind])
      · simp [mapDelete, h0, mapGet, ih hnd.2]

theorem mapGet_mem {β : Type} (m : List (String × β)) (key : String) (v : β)
    (h : mapGet m key = some v) : (key, v) ∈ m := by
  induction m with
  | nil => simp [mapGet] at h
  | cons hd tl ih =>
      obtain ⟨k0, v0⟩ := hd
      by_cases h0 : k0 = key
      · subst h0
        rw [mapGet, if_pos rfl] at h
        obtain rfl : v0 = v := Option.some.inj h
        exact List.mem_cons_self _ _
      · rw [mapGet, if_neg h0] at h
        exact List.mem_cons_of_mem _ (ih h)

theorem mem_mapGet_of_nodup {β : Type} (m : List (String × β)) (key : String)
    (v : β) (hnd : (m.map Prod.fst).Nodup) (h : (key, v) ∈ m) :
    mapGet m key = some v := by
  induction m with
  | nil => simp at h
  | cons hd tl ih =>
      obtain ⟨k0, v0⟩ := hd
      simp only [List.map_cons, List.nodup_cons] at hnd
      rcases List.mem_cons.mp h with h1 | h1
      · injection h1 with h1a h1b
        subst h1a
        subst h1b
        rw [mapGet, if_pos rfl]
      · have hk : k0 ≠ key := by
          intro hk
          subst hk
          exact hnd.1 (List.mem_map.mpr ⟨(k0, v), h1, rfl⟩)
        rw [mapGet, if_neg hk]
        exact ih hnd.2 h1

/-! ## Interleaved store operations on one task id -/

/-- One store mutation against a fixed task id, for reasoning about
interleavings of the four mutators. -/
inductive TaskOp : Type where
  | complete (result : TaskResult)
  | fail (error : TaskError)
  | cancel
  | updateProgress (progress : TaskProgress)
deriving DecidableEq, Repr

/-- Apply one operation (with its arrival time) to the store. -/
def applyOp (m : TaskMap) (taskId : String) : TaskOp → Nat → TaskMap
  | TaskOp.complete r, now => (TaskStore.complete m taskId r now).2
  | TaskOp.fail e, now => (TaskStore.fail m taskId e now).2
  | TaskOp.cancel, now => (TaskStore.cancel m taskId now).2
  | TaskOp.updateProgress p, now => (TaskStore.updateProgress m taskId p now).2

/-- Run a sequence of timed operations against one task id. -/
def runOps (m : TaskMap) (taskId : String) : List (TaskOp × Nat) → TaskMap
  | [] => m
  | (op, now) :: rest => runOps (applyOp m taskId op now) taskId rest

/-- Whether an operation writes a terminal status. -/
def TaskOp.isTerminalWrite : TaskOp → Bool
  | TaskOp.complete _ => true
  | TaskOp.fail _ => true
  | TaskOp.cancel => true
  | TaskOp.updateProgress _ => false

/-- Number of terminal-writing operations in a sequence. -/
def countTerminal (ops : List (TaskOp × Nat)) : Nat :=
  (ops.filter (fun e => e.1.isTerminalWrite)).length

theorem update_of_get (m : TaskMap) (taskId : String) (u : TaskUpdates)
    (now : Nat) (t : TaskState) (h : mapGet m taskId = some t) :
    TaskStore.update m taskId u now =
      (some { t with
          status := u.status.getD t.status
          progress := spreadField u.progress t.progress
          result := spreadField u.result t.result
          error := spreadField u.error t.error
          lastUpdatedAt := now },
       mapSet m taskId { t with
          status := u.status.getD t.status
          progress := spreadField u.progress t.progress
          result := spreadField u.result t.result
          error := spreadField u.error t.error
          lastUpdatedAt := now }) := by
  simp [TaskStore.update, h]

theorem complete_of_get (m : TaskMap) (taskId : String) (r : TaskResult)
    (now : Nat) (t : TaskState) (h : mapGet m taskId = some t) :
    TaskStore.complete m taskId r now =
      (some { t with
          status := TaskStatus.completed
          result := some r
          lastUpdatedAt := now },
       mapSet m taskId { t with
          status := TaskStatus.completed
          result := some r
          lastUpdatedAt := now }) := by
  simp [TaskStore.complete, update_of_get m taskId _ now t h]

theorem fail_of_get (m : TaskMap) (taskId : String) (e : TaskError)
    (now : Nat) (t : TaskState) (h : mapGet m taskId = some t) :
    TaskStore.fail m taskId e now =
      (some { t with
          status := TaskStatus.failed
          error := some e
          lastUpdatedAt := now },
       mapSet m taskId { t with
          status := TaskStatus.failed
          error := some e
          lastUpdatedAt := now }) := by
  simp [TaskStore.fail, update_of_get m taskId _ now t h]

theorem cancel_of_get_working (m : TaskMap) (taskId : String) (now : Nat)
    (t : TaskState) (h : mapGet m taskId = some t)
    (hw : t.status = TaskStatus.working) :
    TaskStore.cancel m taskId now =
      (some { t with
          status := TaskStatus.cancelled
          error := some TaskStore.cancelledError
          lastUpdatedAt := now },
       mapSet m taskId { t with
          status := TaskStatus.cancelled
          error := some TaskStore.cancelledError
          lastUpdatedAt := now }) := by
  simp [TaskStore.cancel, h, hw, update_of_get m taskId _ now t h]

theorem cancel_of_get_terminal (m : TaskMap) (taskId : String) (now : Nat)
    (t : TaskState) (h : mapGet m taskId = some t)
    (hw : t.status ≠ TaskStatus.working) :
    TaskStore.cancel m taskId now = (none, m) := by
  simp [TaskStore.cancel, h, hw]

theorem updateProgress_of_get_working (m : TaskMap) (taskId : String)
    (p : TaskProgress) (now : Nat) (t : TaskState)
    (h : mapGet m taskId = some t) (hw : t.status = TaskStatus.working) :
    TaskStore.updateProgress m taskId p now =
      (some { t with progress := some p, lastUpdatedAt := now },
       mapSet m taskId { t with progress := some p, lastUpdatedAt := now }) := by
  simp [TaskStore.updateProgress, h, hw, update_of_get m taskId _ now t h]

theorem updateProgress_of_get_terminal (m : TaskMap) (taskId : String)
    (p : TaskProgress) (now : Nat) (t : TaskState)
    (h : mapGet m taskId = some t) (hw : t.status ≠ TaskStatus.working) :
    TaskStore.updateProgress m taskId p now = (none, m) := by
  simp [TaskStore.updateProgress, h, hw]

theorem applyOp_missing (m : TaskMap) (taskId : String) (op : TaskOp)
    (now : Nat) (h : mapGet m taskId = none) :
    applyOp m taskId op now = m := by
  cases op <;>
    simp [applyOp, TaskStore.complete, TaskStore.fail, TaskStore.cancel,
      TaskStore.updateProgress, TaskStore.update, h]

theorem runOps_missing (m : TaskMap) (taskId : String)
    (ops : List (TaskOp × Nat)) (h : mapGet m taskId = none) :
    runOps m taskId ops = m := by
  induction ops with
  | nil => rfl
  | cons hd tl ih =>
      obtain ⟨op, now⟩ := hd
      rw [runOps, applyOp_missing m taskId op now h, ih]

theorem countTerminal_cons (op : TaskOp) (now : Nat)
    (tl : List (TaskOp × Nat)) :
    countTerminal ((op, now) :: tl) =
      (if op.isTerminalWrite then 1 else 0) + countTerminal tl := by
  by_cases hterm : op.isTerminalWrite <;>
    simp [countTerminal, List.filter_cons, hterm, Nat.add_comm]

theorem applyOp_terminal (m : TaskMap) (taskId : String) (op : TaskOp)
    (now : Nat) (t : TaskState) (h : mapGet m taskId = some t)
    (hw : t.status ≠ TaskStatus.working) :
    ∃ u, mapGet (applyOp m taskId op now) taskId = some u ∧
      u.status ≠ TaskStatus.working := by
  cases op with
  | complete r =>
      show ∃ u, mapGet (TaskStore.complete m taskId r now).2 taskId = some u ∧ _
      rw [complete_of_get m taskId r now t h]
      exact ⟨_, mapGet_set_self .., by simp⟩
  | fail e =>
      show ∃ u, mapGet (TaskStore.fail m taskId e now).2 taskId = some u ∧ _
      rw [fail_of_get m taskId e now t h]
      exact ⟨_, mapGet_set_self .., by simp⟩
  | cancel =>
      show ∃ u, mapGet (TaskStore.cancel m taskId now).2 taskId = some u ∧ _
      rw [cancel_of_get_terminal m taskId now t h hw]
      exact ⟨t, h, hw⟩
  | updateProgress p =>
      show ∃ u, mapGet (TaskStore.updateProgress m taskId p now).2 taskId = some u ∧ _
      rw [updateProgress_of_get_terminal m taskId p now t h hw]
      exact ⟨t, h, hw⟩

theorem runOps_terminal (ops : List (TaskOp × Nat)) :
    ∀ m taskId t, mapGet m taskId = some t → t.status ≠ TaskStatus.working →
      ∃ u, mapGet (runOps m taskId ops) taskId = some u ∧
        u.status ≠ TaskStatus.working := by
  induction ops with
  | nil => exact fun m taskId t h hw => ⟨t, h, hw⟩
  | cons hd tl ih =>
      intro m taskId t h hw
      obtain ⟨op, now⟩ := hd
      obtain ⟨u, hu, hwu⟩ := applyOp_terminal m taskId op now t h hw
      exact ih _ _ _ hu hwu

theorem runOps_noop_of_terminal (ops : List (TaskOp × Nat)) :
    ∀ m taskId t, countTerminal ops = 0 → mapGet m taskId = some t →
      t.status ≠ TaskStatus.working → runOps m taskId ops = m := by
  induction ops with
  | nil => intro m taskId t _ _ _; rfl
  | cons hd tl ih =>
      intro m taskId t hc h hw
      obtain ⟨op, now⟩ := hd
      rw [countTerminal_cons] at hc
      cases op with
      | updateProgress p =>
          have happ : applyOp m taskId (TaskOp.updateProgress p) now = m := by
            show (TaskStore.updateProgress m taskId p now).2 = m
            rw [updateProgress_of_get_terminal m taskId p now t h hw]
          show runOps (applyOp m taskId (TaskOp.updateProgress p) now) taskId tl = m
          rw [happ]
          refine ih m taskId t ?_ h hw
          simpa [TaskOp.isTerminalWrite] using hc
      | complete r => simp [TaskOp.isTerminalWrite] at hc
      | fail e => simp [TaskOp.isTerminalWrite] at hc
      | cancel => simp [TaskOp.isTerminalWrite] at hc

/-! ## Claim C1: terminal writes on one task id -/

/-- The store holding task t1 after create at time 0 and a successful cancel
at time 1. -/
def storeAfterCancel : TaskMap :=
  (TaskStore.cancel (TaskStore.create [] "t1" 0).2 "t1" 1).2

/-- The cancelled record held by storeAfterCancel. -/
def cancelledTask : TaskState :=
  { taskId := "t1"
    status := TaskStatus.cancelled
    createdAt := 0
    lastUpdatedAt := 1
    ttl := 300000
    pollInterval := 1000
    error := some TaskStore.cancelledError }

/-- Claim C1 is false on the code at a concrete input: after a successful
cancel of task t1, a later complete is not a no-op — it overwrites the
terminal status with completed, stores the result, and get no longer shows
cancelled. -/
theorem cancel_then_complete_not_noop :
    (TaskStore.cancel (TaskStore.create [] "t1" 0).2 "t1" 1).1 =
        some cancelledTask ∧
    TaskStore.get (TaskStore.complete storeAfterCancel "t1" sampleResult 2).2
        "t1" =
      some { cancelledTask with
        status := TaskStatus.completed
        result := some sampleResult
        lastUpdatedAt := 2 } ∧
    (TaskStore.get (TaskStore.complete storeAfterCancel "t1" sampleResult 2).2
        "t1").map TaskState.status ≠ some TaskStatus.cancelled := by
  refine ⟨rfl, rfl, by decide⟩

/-- Claim C1 (amended): under interleaved operations on one task id, a
missing record makes every operation a no-op, a terminal status never returns
to working, and cancel and updateProgress are no-ops on terminal records; but
complete and fail are not idempotent on terminal records — on any existing
record, whatever its status, they overwrite the status, store their payload
and stamp lastUpdatedAt, so the last terminal write wins, not the first. -/
theorem task_terminal_writes_amended (m : TaskMap) (taskId : String)
    (ops : List (TaskOp × Nat)) :
    (TaskStore.get m taskId = none → runOps m taskId ops = m) ∧
    (∀ t, TaskStore.get m taskId = some t → t.status ≠ TaskStatus.working →
      ∃ u, TaskStore.get (runOps m taskId ops) taskId = some u ∧
        u.status ≠ TaskStatus.working) ∧
    (∀ t r now, TaskStore.get m taskId = some t →
      TaskStore.get (TaskStore.complete m taskId r now).2 taskId =
        some { t with
          status := TaskStatus.completed
          result := some r
          lastUpdatedAt := now }) ∧
    (∀ t e now, TaskStore.get m taskId = some t →
      TaskStore.get (TaskStore.fail m taskId e now).2 taskId =
        some { t with
          status := TaskStatus.failed
          error := some e
          lastUpdatedAt := now }) ∧
    (∀ t now p, TaskStore.get m taskId = some t →
        t.status ≠ TaskStatus.working →
      TaskStore.cancel m taskId now = (none, m) ∧
      TaskStore.updateProgress m taskId p now = (none, m)) := by
  refine ⟨?_, ?_, ?_, ?_, ?_⟩
  · exact fun h => runOps_missing m taskId ops h
  · exact fun t h hw => runOps_terminal ops m taskId t h hw
  · intro t r now h
    show mapGet (TaskStore.complete m taskId r now).2 taskId = _
    rw [complete_of_get m taskId r now t h]
    exact mapGet_set_self ..
  · intro t e now h
    show mapGet (TaskStore.fail m taskId e now).2 taskId = _
    rw [fail_of_get m taskId e now t h]
    exact mapGet_set_self ..
  · exact fun t now p h hw =>
      ⟨cancel_of_get_terminal m taskId now t h hw,
       updateProgress_of_get_terminal m taskId p now t h hw⟩

/-- Witness: the amended C1 statement applied at concrete inputs — an
operation on a missing id is a no-op, and a run on the cancelled record keeps
a non-working status. -/
theorem task_terminal_writes_amended_witness :
    runOps [] "missing" [(TaskOp.cancel, 3)] = [] ∧
    (∃ u, TaskStore.get
        (runOps storeAfterCancel "t1" [(TaskOp.complete sampleResult, 2)])
        "t1" = some u ∧ u.status ≠ TaskStatus.working) :=
  ⟨(task_terminal_writes_amended [] "missing" [(TaskOp.cancel, 3)]).1 rfl,
   (task_terminal_writes_amended storeAfterCancel "t1"
       [(TaskOp.complete sampleResult, 2)]).2.1 cancelledTask (by rfl)
     (by decide)⟩

/-! ## Claim C2: mutual exclusion of result and error -/

/-- The store for task t1 after create, a progress update, a successful
cancel, and then a late complete. -/
def conflictedStore : TaskMap :=
  runOps (TaskStore.create [] "t1" 0).2 "t1"
    [(TaskOp.updateProgress sampleProgress, 1), (TaskOp.cancel, 2),
     (TaskOp.complete sampleResult, 3)]

/-- Claim C2 is false on the code at a concrete input: after
create, updateProgress, cancel, complete, the record has result and error
both set, error set while the status is completed, and progress still set
although the status is no longer working. -/
theorem result_and_error_both_set :
    (TaskStore.get conflictedStore "t1").bind TaskState.result =
        some sampleResult ∧
    (TaskStore.get conflictedStore "t1").bind TaskState.error =
        some TaskStore.cancelledError ∧
    (TaskStore.get conflictedStore "t1").map TaskState.status =
        some TaskStatus.completed ∧
    (TaskStore.get conflictedStore "t1").bind TaskState.progress =
        some sampleProgress := by
  refine ⟨rfl, rfl, rfl, rfl⟩

/-- Claim C2 (amended): starting from a freshly created record, in every
state reachable by a sequence of complete, fail, cancel and updateProgress
operations containing at most one terminal write, result and error are
mutually exclusive, result is present only when the status is completed, and
error is present only when the status is failed or cancelled.  With a second
terminal write the guarantee is lost: the later write adds its payload
without clearing the other field; and progress set while working persists
unchanged into terminal states. -/
theorem task_result_error_exclusive_amended (ops : List (TaskOp × Nat))
    (m : TaskMap) (taskId : String) (t : TaskState)
    (h : TaskStore.get m taskId = some t)
    (hw : t.status = TaskStatus.working) (hr : t.result = none)
    (he : t.error = none) (hc : countTerminal ops ≤ 1) :
    ∃ u, TaskStore.get (runOps m taskId ops) taskId = some u ∧
      ¬(u.result.isSome ∧ u.error.isSome) ∧
      (u.result.isSome → u.status = TaskStatus.completed) ∧
      (u.error.isSome →
        u.status = TaskStatus.failed ∨ u.status = TaskStatus.cancelled) := by
  induction ops generalizing m t with
  | nil => exact ⟨t, h, by simp [hr, he], by simp [hr], by simp [he]⟩
  | cons hd tl ih =>
      obtain ⟨op, now⟩ := hd
      rw [countTerminal_cons] at hc
      cases op with
      | updateProgress p =>
          have happ := updateProgress_of_get_working m taskId p now t h hw
          show ∃ u, TaskStore.get (runOps
            (TaskStore.updateProgress m taskId p now).2 taskId tl) taskId =
              some u ∧ _
          rw [happ]
          refine ih (mapSet m taskId _) _ (mapGet_set_self ..) hw hr he ?_
          simpa [TaskOp.isTerminalWrite] using hc
      | complete r =>
          have hc0 : countTerminal tl = 0 := by
            simp only [TaskOp.isTerminalWrite, if_pos] at hc
            omega
          have happ := complete_of_get m taskId r now t h
          show ∃ u, TaskStore.get (runOps
            (TaskStore.complete m taskId r now).2 taskId tl) taskId =
              some u ∧ _
          rw [happ]
          rw [runOps_noop_of_terminal tl (mapSet m taskId _) taskId _ hc0
            (mapGet_set_self ..) (by simp)]
          exact ⟨_, mapGet_set_self .., by simp [he], by simp, by simp [he]⟩
      | fail e =>
          have hc0 : countTerminal tl = 0 := by
            simp only [TaskOp.isTerminalWrite, if_pos] at hc
            omega
          have happ := fail_of_get m taskId e now t h
          show ∃ u, TaskStore.get (runOps
            (TaskStore.fail m taskId e now).2 taskId tl) taskId = some u ∧ _
          rw [happ]
          rw [runOps_noop_of_terminal tl (mapSet m taskId _) taskId _ hc0
            (mapGet_set_self ..) (by simp)]
          exact ⟨_, mapGet_set_self .., by simp [hr], by simp [hr], by simp⟩
      | cancel =>
          have hc0 : countTerminal tl = 0 := by
            simp only [TaskOp.isTerminalWrite, if_pos] at hc
            omega
          have happ := cancel_of_get_working m taskId now t h hw
          show ∃ u, TaskStore.get (runOps
            (TaskStore.cancel m taskId now).2 taskId tl) taskId = some u ∧ _
          rw [happ]
          rw [runOps_noop_of_terminal tl (mapSet m taskId _) taskId _ hc0
            (mapGet_set_self ..) (by simp)]
          exact ⟨_, mapGet_set_self .., by simp [hr], by simp [hr], by simp⟩

/-- Witness: the amended C2 statement applied at a concrete run holding one
progress update and one terminal write. -/
theorem task_result_error_exclusive_amended_witness :
    ∃ u, TaskStore.get (runOps (TaskStore.create [] "t1" 0).2 "t1"
        [(TaskOp.updateProgress sampleProgress, 1),
         (TaskOp.complete sampleResult, 2)]) "t1" = some u ∧
      ¬(u.result.isSome ∧ u.error.isSome) ∧
      (u.result.isSome → u.status = TaskStatus.completed) ∧
      (u.error.isSome →
        u.status = TaskStatus.failed ∨ u.status = TaskStatus.cancelled) :=
  task_result_error_exclusive_amended
    [(TaskOp.updateProgress sampleProgress, 1),
     (TaskOp.complete sampleResult, 2)]
    (TaskStore.create [] "t1" 0).2 "t1" (TaskStore.create [] "t1" 0).1
    (by rfl) (by rfl) (by rfl) (by rfl) (by decide)

/-! ## Claim C4: TTL cleanup sweep -/

theorem mapDelete_sublist {β : Type} (m : List (String × β)) (k : String) :
    List.Sublist (mapDelete m k) m := by
  induction m with
  | nil => simp [mapDelete]
  | cons hd tl ih =>
      obtain ⟨k0, v0⟩ := hd
      by_cases h0 : k0 = k
      · rw [mapDelete, if_pos h0]
        exact List.sublist_cons_of_sublist (k0, v0) (List.Sublist.refl tl)
      · rw [mapDelete, if_neg h0]
        exact List.Sublist.cons₂ (k0, v0) ih

theorem nodup_keys_delete {β : Type} (m : List (String × β)) (k : String)
    (hnd : (m.map Prod.fst).Nodup) :
    ((mapDelete m k).map Prod.fst).Nodup :=
  List.Nodup.sublist (List.Sublist.map Prod.fst (mapDelete_sublist m k)) hnd

theorem foldl_delete_get_none (ids : List String) :
    ∀ (m : TaskMap) (key : String), mapGet m key = none →
      mapGet (ids.foldl (fun acc taskId => (TaskStore.delete acc taskId).2) m)
        key = none := by
  induction ids with
  | nil => exact fun m key h => h
  | cons i tl ih =>
      intro m key h
      exact ih _ key (mapGet_delete_none m i key h)

theorem foldl_delete_get_mem (ids : List String) :
    ∀ (m : TaskMap) (key : String), key ∈ ids → (m.map Prod.fst).Nodup →
      mapGet (ids.foldl (fun acc taskId => (TaskStore.delete acc taskId).2) m)
        key = none := by
  induction ids with
  | nil =>
      intro m key h
      simp at h
  | cons i tl ih =>
      intro m key h hnd
      rcases List.mem_cons.mp h with rfl | h1
      · exact foldl_delete_get_none tl _ key (mapGet_delete_self m key hnd)
      · exact ih _ key h1 (nodup_keys_delete m i hnd)

theorem foldl_delete_get_not_mem (ids : List String) :
    ∀ (m : TaskMap) (key : String), key ∉ ids →
      mapGet (ids.foldl (fun acc taskId => (TaskStore.delete acc taskId).2) m)
        key = mapGet m key := by
  induction ids with
  | nil => exact fun m key _ => rfl
  | cons i tl ih =>
      intro m key h
      have h1 : i ≠ key := fun he => h (he ▸ List.mem_cons_self i tl)
      have h2 : key ∉ tl := fun hm => h (List.mem_cons_of_mem _ hm)
      exact (ih _ key h2).trans (mapGet_delete_ne m i key h1)

/-- Claim C4: after a cleanup sweep at time now, a task whose age since
createdAt exceeds its own ttl is deleted irrespective of its status, so get
returns not-found, while a task whose age does not exceed its ttl is still
returned unchanged by get. -/
theorem cleanup_expired_contract (m : TaskMap) (now : Nat) (taskId : String)
    (t : TaskState) (hnd : (m.map Prod.fst).Nodup)
    (h : TaskStore.get m taskId = some t) :
    ((now : Int) - (t.createdAt : Int) > t.ttl →
      TaskStore.get (TaskStore.cleanupExpired m now) taskId = none) ∧
    (¬((now : Int) - (t.createdAt : Int) > t.ttl) →
      TaskStore.get (TaskStore.cleanupExpired m now) taskId = some t) := by
  constructor
  · intro hexp
    have hmem : taskId ∈
        ((m.filter (fun entry => TaskStore.isExpired entry.2 now)).map
          Prod.fst) := by
      refine List.mem_map.mpr ⟨(taskId, t), ?_, rfl⟩
      refine List.mem_filter.mpr ⟨mapGet_mem m taskId t h, ?_⟩
      simpa [TaskStore.isExpired] using hexp
    exact foldl_delete_get_mem _ m taskId hmem hnd
  · intro hkeep
    have hmem : taskId ∉
        ((m.filter (fun entry => TaskStore.isExpired entry.2 now)).map
          Prod.fst) := by
      intro hmem
      obtain ⟨entry, hentry, hfst⟩ := List.mem_map.mp hmem
      obtain ⟨hin, hexp⟩ := List.mem_filter.mp hentry
      obtain ⟨k2, t2⟩ := entry
      obtain rfl : k2 = taskId := hfst
      have h2 : mapGet m k2 = some t := h
      have hsome : mapGet m k2 = some t2 := mem_mapGet_of_nodup m k2 t2 hnd hin
      rw [h2] at hsome
      obtain rfl : t = t2 := Option.some.inj hsome
      exact hkeep (by simpa [TaskStore.isExpired] using hexp)
    exact (foldl_delete_get_not_mem _ m taskId hmem).trans h

/-- A two-task store mirroring spec Scenario D: both tasks created at time 0
with ttl 100. -/
def scenarioDStore : TaskMap :=
  (TaskStore.create (TaskStore.create [] "a" 0 100).2 "b" 0 100).2

/-- The record for task a in scenarioDStore. -/
def scenarioTaskA : TaskState :=
  { taskId := "a"
    status := TaskStatus.working
    createdAt := 0
    lastUpdatedAt := 0
    ttl := 100
    pollInterval := 1000 }

/-- Witness: the C4 contract applied to the Scenario D store — at time 150
task a is gone from the sweep result, at time 50 it is untouched. -/
theorem cleanup_expired_contract_witness :
    TaskStore.get (TaskStore.cleanupExpired scenarioDStore 150) "a" = none ∧
    TaskStore.get (TaskStore.cleanupExpired scenarioDStore 50) "a" =
      some scenarioTaskA :=
  ⟨(cleanup_expired_contract scenarioDStore 150 "a" scenarioTaskA (by decide)
      (by rfl)).1 (by decide),
   (cleanup_expired_contract scenarioDStore 50 "a" scenarioTaskA (by decide)
      (by rfl)).2 (by decide)⟩

/-! ## Claims C6, C7, C9: cancel, updateProgress and create contracts -/

/-- Claim C6: cancel on a working task transitions it to cancelled with the
standard CANCELLED error, stamps lastUpdatedAt and returns the updated record
as success indication; on a missing or already-terminal record it returns
none as rejection indication and leaves the store unchanged. -/
theorem cancel_contract (m : TaskMap) (taskId : String) (now : Nat) :
    (∀ t, TaskStore.get m taskId = some t → t.status = TaskStatus.working →
      (TaskStore.cancel m taskId now).1 =
        some { t with
          status := TaskStatus.cancelled
          error := some TaskStore.cancelledError
          lastUpdatedAt := now } ∧
      TaskStore.get (TaskStore.cancel m taskId now).2 taskId =
        some { t with
          status := TaskStatus.cancelled
          error := some TaskStore.cancelledError
          lastUpdatedAt := now } ∧
      TaskStore.cancelledError.code = "CANCELLED") ∧
    (TaskStore.get m taskId = none →
      TaskStore.cancel m taskId now = (none, m)) ∧
    (∀ t, TaskStore.get m taskId = some t → t.status ≠ TaskStatus.working →
      TaskStore.cancel m taskId now = (none, m)) := by
  refine ⟨?_, ?_, ?_⟩
  · intro t h hw
    rw [cancel_of_get_working m taskId now t h hw]
    exact ⟨rfl, mapGet_set_self .., rfl⟩
  · intro h
    have h0 : mapGet m taskId = none := h
    simp [TaskStore.cancel, h0]
  · exact fun t h hw => cancel_of_get_terminal m taskId now t h hw

/-- Witness: the C6 contract applied at concrete inputs — cancelling the
fresh working task succeeds, cancelling the already-cancelled one is
rejected and leaves the store unchanged. -/
theorem cancel_contract_witness :
    (TaskStore.cancel (TaskStore.create [] "t1" 0).2 "t1" 1).1 =
        some cancelledTask ∧
    TaskStore.cancel storeAfterCancel "t1" 5 = (none, storeAfterCancel) :=
  ⟨((cancel_contract (TaskStore.create [] "t1" 0).2 "t1" 1).1
      (TaskStore.create [] "t1" 0).1 (by rfl) (by rfl)).1,
   (cancel_contract storeAfterCancel "t1" 5).2.2 cancelledTask (by rfl)
     (by decide)⟩

/-- Claim C7: updateProgress on a working task sets the progress snapshot and
refreshes lastUpdatedAt, leaving every other field unchanged; on a missing
record or a record in any non-working status it returns none without error
and leaves the store byte-for-byte unchanged. -/
theorem update_progress_contract (m : TaskMap) (taskId : String)
    (p : TaskProgress) (now : Nat) :
    (∀ t, TaskStore.get m taskId = some t → t.status = TaskStatus.working →
      (TaskStore.updateProgress m taskId p now).1 =
        some { t with progress := some p, lastUpdatedAt := now } ∧
      TaskStore.get (TaskStore.updateProgress m taskId p now).2 taskId =
        some { t with progress := some p, lastUpdatedAt := now }) ∧
    (TaskStore.get m taskId = none →
      TaskStore.updateProgress m taskId p now = (none, m)) ∧
    (∀ t, TaskStore.get m taskId = some t → t.status ≠ TaskStatus.working →
      TaskStore.updateProgress m taskId p now = (none, m)) := by
  refine ⟨?_, ?_, ?_⟩
  · intro t h hw
    rw [updateProgress_of_get_working m taskId p now t h hw]
    exact ⟨rfl, mapGet_set_self ..⟩
  · intro h
    have h0 : mapGet m taskId = none := h
    simp [TaskStore.updateProgress, h0]
  · exact fun t h hw => updateProgress_of_get_terminal m taskId p now t h hw

/-- Witness: the C7 contract applied at concrete inputs — progress lands on
the fresh working task, and the call on the cancelled task is a silent no-op
returning the store untouched. -/
theorem update_progress_contract_witness :
    (TaskStore.updateProgress (TaskStore.create [] "t1" 0).2 "t1"
        sampleProgress 1).1 =
      some { (TaskStore.create [] "t1" 0).1 with
        progress := some sampleProgress
        lastUpdatedAt := 1 } ∧
    TaskStore.updateProgress storeAfterCancel "t1" sampleProgress 5 =
      (none, storeAfterCancel) :=
  ⟨((update_progress_contract (TaskStore.create [] "t1" 0).2 "t1"
       sampleProgress 1).1 (TaskStore.create [] "t1" 0).1 (by rfl)
       (by rfl)).1,
   (update_progress_contract storeAfterCancel "t1" sampleProgress 5).2.2
     cancelledTask (by rfl) (by decide)⟩

/-- Claim C9: TaskStore.create with no ttl argument returns a record with ttl
300000 ms, pollInterval 1000 ms, status working, no progress, result or
error, createdAt equal to lastUpdatedAt, and the record is immediately
reachable via get under its id. -/
theorem create_defaults (m : TaskMap) (taskId : String) (now : Nat) :
    (TaskStore.create m taskId now).1.ttl = 300000 ∧
    (TaskStore.create m taskId now).1.pollInterval = 1000 ∧
    (TaskStore.create m taskId now).1.status = TaskStatus.working ∧
    (TaskStore.create m taskId now).1.progress = none ∧
    (TaskStore.create m taskId now).1.result = none ∧
    (TaskStore.create m taskId now).1.error = none ∧
    (TaskStore.create m taskId now).1.createdAt = now ∧
    (TaskStore.create m taskId now).1.lastUpdatedAt = now ∧
    (TaskStore.create m taskId now).1.taskId = taskId ∧
    TaskStore.get (TaskStore.create m taskId now).2 taskId =
      some (TaskStore.create m taskId now).1 := by
  exact ⟨rfl, rfl, rfl, rfl, rfl, rfl, rfl, rfl, rfl, mapGet_set_self ..⟩

/-! ## compress_logs handler (src/tools/compress.ts) -/

/-- The output format union of CompressLogsArgs. -/
inductive LogFormat : Type where
  | smart
  | summary
  | detailed
  | json
deriving DecidableEq, Repr

/-- Embedding of the CompressLogsArgs object after zod validation; none marks
an absent optional field. -/
structure CompressLogsArgs : Type where
  logs : String
  format : Option LogFormat := none
  max_templates : Option Nat := none
  depth : Option Nat := none
  threshold : Option Rat := none
  use_task : Option Bool := none
deriving DecidableEq, Repr

/-- The fixed size threshold for async processing (1MB). -/
def ASYNC_THRESHOLD : Nat := 1024 * 1024

/-- The stats block of the external CompressionResult. -/
structure CompressStats : Type where
  compressionRatio : Rat
  inputLines : Nat
  uniqueTemplates : Nat
  estimatedTokenReduction : Rat
deriving DecidableEq, Repr

/-- The slice of an external logpare Template that this embedding carries. -/
structure TemplateInfo : Type where
  id : String
  pattern : String
  occurrences : Nat
  severity : String
  isStackFrame : Bool
deriving DecidableEq, Repr

/-- The external CompressionResult returned by compressText. -/
structure CompressionResult : Type where
  formatted : String
  stats : CompressStats
  templates : List TemplateInfo
deriving DecidableEq, Repr

/-- The enriched template objects placed into structuredContent. -/
structure EnrichedTemplate : Type where
  id : String
  pattern : String
  occurrences : Nat
  severity : String
  isStackFrame : Bool
  hydratedExample : String
  isExpectedFailure : Bool
  isPerformanceViolation : Bool
deriving DecidableEq, Repr

/-- The structuredContent payloads produced by the compress_logs handler:
either an inline synchronous result or the async task descriptor. -/
inductive StructuredContent : Type where
  | syncResult (compressionRatio : Rat) (inputLines : Nat)
      (uniqueTemplates : Nat) (estimatedTokenReduction : Rat)
      (summary : TaskSummary) (templates : List EnrichedTemplate)
  | taskInfo (taskId : String) (status : TaskStatus) (createdAt : Nat)
      (pollInterval : Nat)
deriving DecidableEq, Repr

/-- Tool result type of the MCP handlers. -/
structure ToolResult : Type where
  content : List TextContent
  structuredContent : Option StructuredContent := none
  isError : Option Bool := none
deriving DecidableEq, Repr

/-- The pure output-formatting collaborators of compressSync that the spec
places out of scope as rendering of already-computed data (formatSmart,
enrichTemplate and the smart.ts predicates behind generateSummary); they
enter the embedding as function parameters. -/
structure Formatting : Type where
  formatSmart : List TemplateInfo → CompressStats → String
  enrichTemplate : TemplateInfo → EnrichedTemplate
  generateSummary : List TemplateInfo → TaskSummary

/-- Embedding of compressSync.  The external compressText call enters as the
outcome parameter: ok is a normal return, error a thrown exception carrying
its message; the catch block maps the exception to an isError tool result. -/
def compressSync (fmt : Formatting) (args : CompressLogsArgs)
    (outcome : Except String CompressionResult) : ToolResult :=
  match outcome with
  | Except.error message =>
      { content := [{ text := "Error compressing logs: " ++ message }]
        isError := some true }
  | Except.ok result =>
      let format := args.format.getD LogFormat.smart
      let maxTemplates := args.max_templates.getD 50
      let outputText :=
        if format = LogFormat.smart then
          fmt.formatSmart result.templates result.stats
        else result.formatted
      let limitedTemplates := result.templates.take maxTemplates
      { content := [{ text := outputText }]
        structuredContent := some (StructuredContent.syncResult
          result.stats.compressionRatio result.stats.inputLines
          result.stats.uniqueTemplates result.stats.estimatedTokenReduction
          (fmt.generateSummary result.templates)
          (limitedTemplates.map fmt.enrichTemplate)) }

/-- Embedding of the immediate, request-path part of startAsyncCompression:
allocate the task record and return the task descriptor.  The deferred
background job scheduled by setImmediate mutates the store later through
exactly the complete, fail and updateProgress operations modelled by
TaskOp. -/
def startAsyncCompression (m : TaskMap) (freshId : String) (now : Nat) :
    ToolResult × TaskMap :=
  let created := TaskStore.create m freshId now
  ({ content := [{ text := "Compression task started. Task ID: " ++
        created.1.taskId ++
        "\n\nPoll for status using the task ID. Estimated completion: a few seconds." }]
     structuredContent := some (StructuredContent.taskInfo created.1.taskId
       TaskStatus.working created.1.createdAt created.1.pollInterval) },
   created.2)

/-- Embedding of handleCompressLogs: route to async when use_task is exactly
true or the logs length exceeds the threshold, otherwise run synchronously. -/
def handleCompressLogs (fmt : Formatting) (m : TaskMap)
    (args : CompressLogsArgs) (freshId : String) (now : Nat)
    (outcome : Except String CompressionResult) : ToolResult × TaskMap :=
  if args.use_task = some true ∨ args.logs.length > ASYNC_THRESHOLD then
    startAsyncCompression m freshId now
  else (compressSync fmt args outcome, m)

/-- A concrete instantiation of the out-of-scope formatting collaborators,
used only to evaluate the handler at concrete inputs. -/
def trivialFormatting : Formatting :=
  { formatSmart := fun _ _ => ""
    enrichTemplate := fun t =>
      { id := t.id
        pattern := t.pattern
        occurrences := t.occurrences
        severity := t.severity
        isStackFrame := t.isStackFrame
        hydratedExample := ""
        isExpectedFailure := false
        isPerformanceViolation := false }
    generateSummary := fun _ =>
      { userImpactingErrors := 0, expectedFailures := 0
        performanceViolations := 0, otherWarnings := 0
        infoPatterns := 0, stackTracePatterns := 0 } }

/-- Claim C5 (amended): the compress_logs handler routes to asynchronous
execution — creating a working task record whose id is returned in the task
descriptor — exactly when use_task is exactly true or the logs length
strictly exceeds the 1MB threshold; every other input, including one exactly
at the threshold, runs synchronously, returning the compression result
directly with the task store untouched. -/
theorem compress_routing_amended (fmt : Formatting) (m : TaskMap)
    (args : CompressLogsArgs) (freshId : String) (now : Nat)
    (outcome : Except String CompressionResult) :
    (args.use_task = some true ∨ args.logs.length > ASYNC_THRESHOLD →
      (handleCompressLogs fmt m args freshId now outcome).2 =
        (TaskStore.create m freshId now).2 ∧
      TaskStore.get (handleCompressLogs fmt m args freshId now outcome).2
          freshId = some (TaskStore.create m freshId now).1 ∧
      (TaskStore.create m freshId now).1.status = TaskStatus.working ∧
      (handleCompressLogs fmt m args freshId now outcome).1.structuredContent
        = some (StructuredContent.taskInfo freshId TaskStatus.working now
            1000)) ∧
    (¬(args.use_task = some true ∨ args.logs.length > ASYNC_THRESHOLD) →
      handleCompressLogs fmt m args freshId now outcome =
        (compressSync fmt args outcome, m)) := by
  constructor
  · intro hasync
    simp only [handleCompressLogs]
    rw [if_pos hasync]
    exact ⟨rfl, mapGet_set_self .., rfl, rfl⟩
  · intro hsync
    simp only [handleCompressLogs]
    rw [if_neg hsync]

/-- Witness: the amended C5 routing applied at concrete inputs — the
explicit flag routes async and registers the working record, a small input
without the flag stays synchronous. -/
theorem compress_routing_amended_witness :
    TaskStore.get (handleCompressLogs trivialFormatting []
        { logs := "a", use_task := some true } "t9" 0
        (Except.error "x")).2 "t9" = some (TaskStore.create [] "t9" 0).1 ∧
    handleCompressLogs trivialFormatting [] { logs := "a" } "t9" 0
        (Except.error "x") =
      (compressSync trivialFormatting { logs := "a" } (Except.error "x"),
       []) :=
  ⟨((compress_routing_amended trivialFormatting []
       { logs := "a", use_task := some true } "t9" 0
       (Except.error "x")).1 (Or.inl rfl)).2.1,
   (compress_routing_amended trivialFormatting [] { logs := "a" } "t9" 0
       (Except.error "x")).2 (by decide)⟩

/-- A logs payload whose length is exactly the async threshold. -/
def boundaryLogs : String := String.mk (List.replicate ASYNC_THRESHOLD 'a')

/-- Claim C5 is false on the code at a concrete input: a logs payload of
length exactly 1MB with the flag unset routes synchronously — no task record
is created — while the claim requires asynchronous routing for every input
at or above the threshold. -/
theorem threshold_boundary_routes_sync :
    ({ logs := boundaryLogs } : CompressLogsArgs).logs.length =
        ASYNC_THRESHOLD ∧
    ({ logs := boundaryLogs } : CompressLogsArgs).use_task ≠ some true ∧
    handleCompressLogs trivialFormatting [] { logs := boundaryLogs } "t9" 0
        (Except.error "x") =
      (compressSync trivialFormatting { logs := boundaryLogs }
        (Except.error "x"), []) := by
  have hlen : boundaryLogs.length = ASYNC_THRESHOLD := by
    simp [boundaryLogs, String.length]
  have hnot : ¬(({ logs := boundaryLogs } : CompressLogsArgs).use_task =
      some true ∨
      ({ logs := boundaryLogs } : CompressLogsArgs).logs.length >
        ASYNC_THRESHOLD) := by
    intro hor
    rcases hor with h1 | h2
    · exact Option.noConfusion h1
    · rw [show ({ logs := boundaryLogs } : CompressLogsArgs).logs =
          boundaryLogs from rfl, hlen] at h2
      exact Nat.lt_irrefl _ h2
  refine ⟨hlen, fun h1 => Option.noConfusion h1, ?_⟩
  simp only [handleCompressLogs]
  rw [if_neg hnot]

/-- Claim C10: on the synchronous path the compress_logs handler never
propagates an exception from the underlying compression function: the thrown
message is caught and returned as a ToolResult with isError true whose
content text contains the error message, with the task store untouched. -/
theorem compress_sync_catches (fmt : Formatting) (m : TaskMap)
    (args : CompressLogsArgs) (freshId : String) (now : Nat)
    (message : String) (hflag : args.use_task ≠ some true)
    (hsize : args.logs.length ≤ ASYNC_THRESHOLD) :
    handleCompressLogs fmt m args freshId now (Except.error message) =
      ({ content := [{ text := "Error compressing logs: " ++ message }]
         isError := some true }, m) ∧
    ∃ pre post,
      "Error compressing logs: " ++ message = pre ++ message ++ post := by
  constructor
  · have hnot : ¬(args.use_task = some true ∨
        args.logs.length > ASYNC_THRESHOLD) := by
      intro hor
      rcases hor with h1 | h2
      · exact hflag h1
      · exact absurd h2 (Nat.not_lt.mpr hsize)
    simp only [handleCompressLogs]
    rw [if_neg hnot]
    rfl
  · exact ⟨"Error compressing logs: ", "", by simp⟩

/-- Witness: the C10 contract applied at a concrete failing compression. -/
theorem compress_sync_catches_witness :
    handleCompressLogs trivialFormatting [] { logs := "boom" } "t9" 0
        (Except.error "bad input") =
      ({ content := [{ text := "Error compressing logs: " ++ "bad input" }]
         isError := some true }, []) ∧
    ∃ pre post, "Error compressing logs: " ++ "bad input" =
      pre ++ "bad input" ++ post :=
  compress_sync_catches trivialFormatting [] { logs := "boom" } "t9" 0
    "bad input" (by decide) (by decide)

/-! ## HTTP session registry and POST router (src/transports/http.ts) -/

/-- Transport handles are opaque to the router; embedded as numeric
identities. -/
abbrev TransportHandle : Type := Nat

/-- The module-level transports record mapping session id to transport. -/
abbrev SessionMap : Type := List (String × TransportHandle)

/-- Truthiness of the mcp-session-id header value in the JavaScript
conditions: an absent header and an empty string are both falsy. -/
def sidTruthy : Option String → Bool
  | some s => !s.isEmpty
  | none => false

/-- The three-way branch of the POST handler. -/
inductive PostRoute : Type where
  | reuse (transport : TransportHandle)
  | beginSession
  | reject
deriving DecidableEq, Repr

/-- Embedding of the POST handler branch condition: reuse when the header is
truthy and registered, initialize when the header is falsy and the body is an
initialize request, reject otherwise. -/
def routePost (reg : SessionMap) (sessionId : Option String) (isInit : Bool) :
    PostRoute :=
  match sessionId with
  | some sid =>
      if sid.isEmpty then
        (if isInit then PostRoute.beginSession else PostRoute.reject)
      else
        match mapGet reg sid with
        | some t => PostRoute.reuse t
        | none => PostRoute.reject
  | none => if isInit then PostRoute.beginSession else PostRoute.reject

/-- The observable outcome of one POST request. -/
inductive PostResponse : Type where
  | handled (transport : TransportHandle)
  | initialized (sessionId : String)
  | errorResponse (httpStatus : Nat) (code : Int) (message : String)
deriving DecidableEq, Repr

/-- Embedding of the POST handler: reuse forwards to the existing transport,
initialization mints a transport and registers it under the generated session
id once the server connect handshake succeeds (the onsessioninitialized
callback), a failed connect cleans up and reports an internal error, and
everything else is rejected with the standard invalid-session error.  The
registry is modified only by a successful initialization. -/
def handlePost (reg : SessionMap) (sessionId : Option String) (isInit : Bool)
    (newSessionId : String) (newHandle : TransportHandle)
    (connectOk : Bool) : PostResponse × SessionMap :=
  match routePost reg sessionId isInit with
  | PostRoute.reuse t => (PostResponse.handled t, reg)
  | PostRoute.beginSession =>
      if connectOk then
        (PostResponse.initialized newSessionId,
         mapSet reg newSessionId newHandle)
      else
        (PostResponse.errorResponse 500 (-32603)
          "Internal error: failed to initialize session", reg)
  | PostRoute.reject =>
      (PostResponse.errorResponse 400 (-32000) "Invalid session", reg)

/-- Claim C8: a POST without a truthy session id that is not an initialize
request, or with a session id absent from the registry, is rejected with the
standard invalid-session error (JSON-RPC -32000, HTTP 400) and the registry
is untouched; only a known session id attaches to its existing transport,
and only an initialize request without a session id (after a successful
connect) registers a new session. -/
theorem post_router_contract (reg : SessionMap) (sessionId : Option String)
    (isInit : Bool) (newSessionId : String) (newHandle : TransportHandle)
    (connectOk : Bool) :
    (sidTruthy sessionId = false → isInit = false →
      handlePost reg sessionId isInit newSessionId newHandle connectOk =
        (PostResponse.errorResponse 400 (-32000) "Invalid session", reg)) ∧
    (∀ s, sessionId = some s → s.isEmpty = false → mapGet reg s = none →
      handlePost reg sessionId isInit newSessionId newHandle connectOk =
        (PostResponse.errorResponse 400 (-32000) "Invalid session", reg)) ∧
    (∀ s t, sessionId = some s → s.isEmpty = false → mapGet reg s = some t →
      handlePost reg sessionId isInit newSessionId newHandle connectOk =
        (PostResponse.handled t, reg)) ∧
    (sidTruthy sessionId = false → isInit = true → connectOk = true →
      handlePost reg sessionId isInit newSessionId newHandle connectOk =
        (PostResponse.initialized newSessionId,
         mapSet reg newSessionId newHandle) ∧
      mapGet (mapSet reg newSessionId newHandle) newSessionId =
        some newHandle) := by
  refine ⟨?_, ?_, ?_, ?_⟩
  · intro hfalsy hinit
    subst hinit
    cases sessionId with
    | none => simp [handlePost, routePost]
    | some s =>
        have hs : s.isEmpty = true := by simpa [sidTruthy] using hfalsy
        simp [handlePost, routePost, hs]
  · intro s hsid hne hget
    subst hsid
    simp [handlePost, routePost, hne, hget]
  · intro s t hsid hne hget
    subst hsid
    simp [handlePost, routePost, hne, hget]
  · intro hfalsy hinit hconn
    subst hinit
    subst hconn
    refine ⟨?_, mapGet_set_self ..⟩
    cases sessionId with
    | none => simp [handlePost, routePost]
    | some s =>
        have hs : s.isEmpty = true := by simpa [sidTruthy] using hfalsy
        simp [handlePost, routePost, hs]

/-- Witness: the C8 contract applied at concrete requests mirroring spec
Scenario C — unknown id S2 rejected, known id S1 attached, no id and no
initialize marker rejected. -/
theorem post_router_contract_witness :
    handlePost [("S1", 7)] (some "S2") true "N" 9 true =
      (PostResponse.errorResponse 400 (-32000) "Invalid session",
       [("S1", 7)]) ∧
    handlePost [("S1", 7)] (some "S1") false "N" 9 true =
      (PostResponse.handled 7, [("S1", 7)]) ∧
    handlePost [("S1", 7)] none false "N" 9 true =
      (PostResponse.errorResponse 400 (-32000) "Invalid session",
       [("S1", 7)]) :=
  ⟨(post_router_contract [("S1", 7)] (some "S2") true "N" 9 true).2.1 "S2"
     rfl (by decide) (by decide),
   (post_router_contract [("S1", 7)] (some "S1") false "N" 9 true).2.2.1
     "S1" 7 rfl (by decide) (by decide),
   (post_router_contract [("S1", 7)] none false "N" 9 true).1 rfl rfl⟩

/-! ## Idle session sweep (modelled from the spec, section 4.3) -/

/-- One registered session: its transport handle and last-activity time. -/
structure SessionEntry : Type where
  lastActivity : Nat
  handle : TransportHandle
deriving DecidableEq, Repr

/-- The session registry swept by the idle eviction. -/
abbrev SessionRegistry : Type := List (String × SessionEntry)

/-- One observable action of the idle sweep, in emission order. -/
inductive SweepEvent : Type where
  | closeHandle (handle : TransportHandle)
  | removeSession (sessionId : String)
deriving DecidableEq, Repr

/-- Number of close events for one handle in a sweep trace. -/
def countClose (h : TransportHandle) : List SweepEvent → Nat
  | [] => 0
  | SweepEvent.closeHandle h2 :: rest =>
      (if h2 = h then 1 else 0) + countClose h rest
  | SweepEvent.removeSession _ :: rest => countClose h rest

/-- Modelled from the spec: the idle sweep evictIdle of the session registry.
The entry point imports an HttpSessionManager from src/transports/http.ts,
but the http.ts in the snapshot exports no such manager and holds no idle
sweep or lastActivity tracking, so the sweep is modelled from the spec text:
on each tick, for each session whose now - lastActivity exceeds the fixed
timeout, close its transport handle and remove it from the registry, in that
order.  The function returns the swept registry together with the ordered
trace of close and remove actions. -/
def evictIdle (reg : SessionRegistry) (now timeout : Nat) :
    SessionRegistry × List SweepEvent :=
  match reg with
  | [] => ([], [])
  | (sid, entry) :: rest =>
      let tail := evictIdle rest now timeout
      if now - entry.lastActivity > timeout then
        (tail.1,
         SweepEvent.closeHandle entry.handle ::
           SweepEvent.removeSession sid :: tail.2)
      else ((sid, entry) :: tail.1, tail.2)

theorem mapGet_eq_none_of_not_mem_keys {β : Type} (m : List (String × β))
    (key : String) (h : key ∉ m.map Prod.fst) : mapGet m key = none := by
  induction m with
  | nil => rfl
  | cons hd tl ih =>
      obtain ⟨k0, v0⟩ := hd
      simp only [List.map_cons, List.mem_cons, not_or] at h
      rw [mapGet, if_neg (fun he => h.1 he.symm)]
      exact ih h.2

theorem evictIdle_get_none (reg : SessionRegistry) (now timeout : Nat)
    (sid : String) (h : mapGet reg sid = none) :
    mapGet (evictIdle reg now timeout).1 sid = none := by
  induction reg with
  | nil => rfl
  | cons hd tl ih =>
      obtain ⟨sid0, e0⟩ := hd
      rw [mapGet] at h
      by_cases h0 : sid0 = sid
      · rw [if_pos h0] at h
        exact Option.noConfusion h
      · rw [if_neg h0] at h
        rw [evictIdle]
        by_cases hidle : now - e0.lastActivity > timeout
        · simpa [hidle] using ih h
        · simp only [hidle, if_false]
          rw [mapGet, if_neg h0]
          exact ih h

theorem countClose_evictIdle_zero (reg : SessionRegistry) (now timeout : Nat)
    (h : TransportHandle)
    (hmem : h ∉ reg.map (fun e => e.2.handle)) :
    countClose h (evictIdle reg now timeout).2 = 0 := by
  induction reg with
  | nil => rfl
  | cons hd tl ih =>
      obtain ⟨sid0, e0⟩ := hd
      simp only [List.map_cons, List.mem_cons, not_or] at hmem
      rw [evictIdle]
      by_cases hidle : now - e0.lastActivity > timeout
      · simp only [hidle, if_true]
        simp only [countClose]
        rw [if_neg (fun he => hmem.1 he.symm)]
        simpa using ih hmem.2
      · simp only [hidle, if_false]
        exact ih hmem.2

/-- Claim C3: after an idle sweep tick, every session whose last activity is
older than the fixed timeout is absent from the registry, its transport
handle is closed exactly once, and the close event precedes the removal
event in the sweep trace.  Modelled from the spec, since the idle sweep code
is not present in the src snapshot. -/
theorem idle_sweep_contract (reg : SessionRegistry) (now timeout : Nat)
    (sid : String) (entry : SessionEntry)
    (hkeys : (reg.map Prod.fst).Nodup)
    (hhandles : (reg.map (fun e => e.2.handle)).Nodup)
    (hget : mapGet reg sid = some entry)
    (hidle : now - entry.lastActivity > timeout) :
    mapGet (evictIdle reg now timeout).1 sid = none ∧
    countClose entry.handle (evictIdle reg now timeout).2 = 1 ∧
    ∃ i j, i < j ∧
      (evictIdle reg now timeout).2.get? i =
        some (SweepEvent.closeHandle entry.handle) ∧
      (evictIdle reg now timeout).2.get? j =
        some (SweepEvent.removeSession sid) := by
  induction reg with
  | nil => exact Option.noConfusion hget
  | cons hd tl ih =>
      obtain ⟨sid0, e0⟩ := hd
      simp only [List.map_cons, List.nodup_cons] at hkeys hhandles
      rw [mapGet] at hget
      by_cases h0 : sid0 = sid
      · subst h0
        rw [if_pos rfl] at hget
        obtain rfl : e0 = entry := Option.some.inj hget
        rw [evictIdle]
        simp only [hidle, if_true]
        refine ⟨?_, ?_, 0, 1, Nat.zero_lt_one, rfl, rfl⟩
        · exact evictIdle_get_none tl now timeout sid0
            (mapGet_eq_none_of_not_mem_keys tl sid0 hkeys.1)
        · simp [countClose,
            countClose_evictIdle_zero tl now timeout e0.handle hhandles.1]
      · rw [if_neg h0] at hget
        have hmemtl : entry.handle ∈ tl.map (fun e => e.2.handle) :=
          List.mem_map.mpr ⟨(sid, entry), mapGet_mem tl sid entry hget, rfl⟩
        have hne : e0.handle ≠ entry.handle := fun he =>
          hhandles.1 (he ▸ hmemtl)
        obtain ⟨hnone, hcount, i, j, hij, hi, hj⟩ :=
          ih hkeys.2 hhandles.2 hget
        rw [evictIdle]
        by_cases hidle0 : now - e0.lastActivity > timeout
        · simp only [hidle0, if_true]
          refine ⟨hnone, ?_, i + 2, j + 2, by omega, ?_, ?_⟩
          · simp only [countClose]
            rw [if_neg hne]
            simpa using hcount
          · simpa using hi
          · simpa using hj
        · simp only [hidle0, if_false]
          refine ⟨?_, hcount, i, j, hij, hi, hj⟩
          rw [mapGet, if_neg h0]
          exact hnone

/-- A concrete two-session registry: s1 idle since time 0, s2 active at
time 100. -/
def sampleRegistry : SessionRegistry :=
  [("s1", { lastActivity := 0, handle := 1 }),
   ("s2", { lastActivity := 100, handle := 2 })]

/-- Witness: the C3 contract applied to the concrete registry at time 61
with timeout 60 — session s1 is gone, its handle closed exactly once, close
before removal. -/
theorem idle_sweep_contract_witness :
    mapGet (evictIdle sampleRegistry 61 60).1 "s1" = none ∧
    countClose 1 (evictIdle sampleRegistry 61 60).2 = 1 ∧
    ∃ i j, i < j ∧
      (evictIdle sampleRegistry 61 60).2.get? i =
        some (SweepEvent.closeHandle 1) ∧
      (evictIdle sampleRegistry 61 60).2.get? j =
        some (SweepEvent.removeSession "s1") :=
  idle_sweep_contract sampleRegistry 61 60 "s1"
    { lastActivity := 0, handle := 1 } (by decide) (by decide) (by rfl)
    (by decide)

end Logpare
